import Mathlib

/-!
Verification of the natural-language specification of `lsst-sqre/lander`
against the repository's TeX-processing code.

The definitions below are shallow embeddings of the Python functions in

  * `src/lander/lsstprojectmeta/tex/normalizer.py`
    (`remove_comments`, `remove_trailing_whitespace`, `process_inputs`,
    `replace_macros`),
  * `src/lander/lsstprojectmeta/tex/scraper.py`
    (`DEF_PATTERN`, `get_def_macros`, `get_newcommand_macros`),
  * `src/lander/lsstprojectmeta/tex/commandparser.py`
    (`LatexCommand`, `ParsedCommand`) — the class `LaTeXCommand` in
    `src/lander/ext/parser/texutils/extract.py` implements the same
    algorithm line for line, so one embedding serves both,
  * `src/lander/lsstprojectmeta/tex/lsstdoc.py`
    (`LsstLatexDoc._parse_documentclass`, `_parse_title`, `build_jsonld`),
  * `src/lander/parsers/article/_parser.py` (`ArticleParser._parse_title`).

Strings are modelled as `List Char` wrapped in `String`; Python regular
expressions are translated into explicit character scanners that reproduce
the leftmost-match and greedy/lazy semantics of the concrete patterns used
by the code (each scanner's doc comment records the pattern it embeds).
-/

namespace Lander

/-- Python `str.isspace` / regex `\s` for the ASCII range: space, tab,
newline, carriage return, vertical tab, form feed. -/
def pyIsSpace (c : Char) : Bool :=
  c = ' ' || c = '\t' || c = '\n' || c = '\r' || c = '\x0b' || c = '\x0c'

/-- Python `str.strip()` on a list of characters: remove leading and
trailing whitespace. -/
def pyStrip (cs : List Char) : List Char :=
  ((cs.dropWhile pyIsSpace).reverse.dropWhile pyIsSpace).reverse

/-- Split a character list at every occurrence of `sep`, keeping empty
segments (the semantics of Python `str.split(sep)` with a one-character
separator). -/
def splitOnChar (sep : Char) : List Char → List (List Char)
  | [] => [[]]
  | c :: rest =>
    if c = sep then
      [] :: splitOnChar sep rest
    else
      match splitOnChar sep rest with
      | l :: ls => (c :: l) :: ls
      | [] => [[c]]

/-- Join segments with the character `sep` between them (inverse of
`splitOnChar` used to reassemble lines). -/
def joinWithChar (sep : Char) : List (List Char) → List Char
  | [] => []
  | [l] => l
  | l :: ls => l ++ sep :: joinWithChar sep ls

/-- Python `dict` insertion `d[k] = v`: replace the value in place when the
key exists (keeping its position), otherwise append the new binding. -/
def dictInsert {α : Type} (m : List (String × α)) (k : String) (v : α) :
    List (String × α) :=
  if m.any (fun p => p.1 == k) then
    m.map (fun p => if p.1 == k then (k, v) else p)
  else
    m ++ [(k, v)]

/-- Python `dict` lookup `d[k]` returning `none` for a missing key. -/
def dictGet {α : Type} (m : List (String × α)) (k : String) : Option α :=
  (m.find? (fun p => p.1 == k)).map (fun p => p.2)

/-!
### `normalizer.remove_comments`

`re.sub(r"(?<!\\)%.*$", r"", tex_source, flags=re.M)`: on every line,
delete from the first `%` that is not immediately preceded by a backslash
through the end of the line.
-/

/-- One line of `remove_comments`: walk the line remembering the previous
character; cut at the first `%` whose predecessor is not `\` (at the start
of a line the predecessor in the full string is a newline or nothing, so a
leading `%` is always cut). -/
def stripLineComment : Option Char → List Char → List Char
  | _, [] => []
  | prev, c :: rest =>
    if c = '%' ∧ prev ≠ some '\\' then []
    else c :: stripLineComment (some c) rest

/-- `normalizer.remove_comments`. -/
def remove_comments (texSource : String) : String :=
  String.mk (joinWithChar '\n'
    ((splitOnChar '\n' texSource.data).map (stripLineComment none)))

/-!
### `normalizer.remove_trailing_whitespace`

`re.sub(r"[ \t]+$", "", tex_source, flags=re.M)`: delete space and tab
characters standing immediately before each newline or the end of input.
-/

/-- Drop trailing spaces and tabs of one line. -/
def dropTrailingSpaceTab (cs : List Char) : List Char :=
  (cs.reverse.dropWhile (fun c => c = ' ' || c = '\t')).reverse

/-- `normalizer.remove_trailing_whitespace`. -/
def remove_trailing_whitespace (texSource : String) : String :=
  String.mk (joinWithChar '\n'
    ((splitOnChar '\n' texSource.data).map dropTrailingSpaceTab))

/-!
### `normalizer.replace_macros`

For each `(macro_name, macro_content)` in the table the code runs
`re.sub(re.escape(macro_name) + r"\\?", lambda _: macro_content, tex_source)`:
every literal occurrence of the macro name, together with one optional
immediately-following backslash, is replaced by the content.  Because the
replacement is a lambda, the content is inserted verbatim (no processing of
backslash escapes in the replacement text).  There is no word-boundary
check of any kind.
-/

/-- One `re.sub` pass for a single macro.  `fuel` bounds the recursion
(each step consumes at least one character of the remaining input, so
`length + 1` fuel always suffices; macro names produced by the scrapers
always start with a backslash and are never empty). -/
def replaceMacroPassAux (name content : List Char) : Nat → List Char → List Char
  | 0, l => l
  | _ + 1, [] => []
  | fuel + 1, c :: rest =>
    if name.isPrefixOf (c :: rest) then
      -- replace the matched name, consuming one optional trailing backslash
      content ++ replaceMacroPassAux name content fuel
        (match (c :: rest).drop name.length with
         | '\\' :: r => r
         | r => r)
    else
      c :: replaceMacroPassAux name content fuel rest

/-- One `re.sub(re.escape(name) + r"\\?", lambda _: content, s)` pass. -/
def replaceMacroPass (name content : String) (s : String) : String :=
  String.mk (replaceMacroPassAux name.data content.data (s.data.length + 1) s.data)

/-- `normalizer.replace_macros`: fold the single-macro pass over the macro
table in order (Python `dict` iteration order is insertion order). -/
def replace_macros (texSource : String) (macros : List (String × String)) : String :=
  macros.foldl (fun src p => replaceMacroPass p.1 p.2 src) texSource

/-!
### `normalizer.process_inputs` and `input_include_pattern`

```
input_include_pattern = re.compile(
    r"\\(?P<command>input|include)"
    r"(([ ]*\{)|([ ]+))"
    r"(?P<filename>[\w/\-\.]+)"
    r"[\}%\s]")
```

`process_inputs` replaces every match (including the final closing
character, which belongs to the match) by the recursively-read file named
by the `filename` group.  Reading the file is I/O; it is abstracted below
by the `inline` argument, which stands for `_sub_line`'s successful result
for a given filename.  When the pattern has no match, `re.sub` never calls
`_sub_line` and returns the source unchanged.
-/

/-- Regex `\w` (ASCII) plus the extra filename characters `/`, `-`, `.`. -/
def isFilenameChar (c : Char) : Bool :=
  c.isAlphanum || c = '_' || c = '/' || c = '-' || c = '.'

/-- Final character class `[\}%\s]` of `input_include_pattern`. -/
def isInputTerminator (c : Char) : Bool :=
  c = '}' || c = '%' || pyIsSpace c

/-- Match the part of `input_include_pattern` following the command word:
`(([ ]*\{)|([ ]+))(?P<filename>[\w/\-\.]+)[\}%\s]`.  The first alternative
succeeds exactly when a (possibly empty) run of spaces is followed by `{`;
otherwise the second needs at least one space.  Both alternatives are
deterministic because spaces, `{`, the filename class and the terminator
class are pairwise disjoint, so the regex engine's backtracking never
produces a different result.  Returns the matched length (from the
position after the command word, terminator included) and the filename. -/
def matchInputTail (afterCmd : List Char) : Option (Nat × List Char) :=
  let spaces := afterCmd.takeWhile (fun c => c = ' ')
  let ns := spaces.length
  let afterSpaces := afterCmd.drop ns
  let attempt : Nat → List Char → Option (Nat × List Char) := fun sepLen rest =>
    let fname := rest.takeWhile isFilenameChar
    if fname.isEmpty then none
    else
      match rest.drop fname.length with
      | t :: _ =>
        if isInputTerminator t then some (sepLen + fname.length + 1, fname)
        else none
      | [] => none
  match afterSpaces with
  | '{' :: rest => attempt (ns + 1) rest
  | _ => if ns ≥ 1 then attempt ns afterSpaces else none

/-- Match `input_include_pattern` anchored at the head of the input: a
backslash, then `input` or `include` (disjoint literals, tried in this
order), then the tail.  Returns the total match length and the filename. -/
def inputIncludeMatchAt : List Char → Option (Nat × List Char)
  | '\\' :: rest =>
    if "input".data.isPrefixOf rest then
      (matchInputTail (rest.drop 5)).map (fun p => (1 + 5 + p.1, p.2))
    else if "include".data.isPrefixOf rest then
      (matchInputTail (rest.drop 7)).map (fun p => (1 + 7 + p.1, p.2))
    else none
  | _ => none

/-- Does `input_include_pattern` match anywhere in the input? -/
def hasInputIncludeAux : List Char → Bool
  | [] => false
  | c :: rest => (inputIncludeMatchAt (c :: rest)).isSome || hasInputIncludeAux rest

/-- Does `input_include_pattern` match anywhere in the source string? -/
def hasInputInclude (texSource : String) : Bool :=
  hasInputIncludeAux texSource.data

/-- `re.sub` over `input_include_pattern`: scan left to right, replacing
each non-overlapping match by `inline filename` and continuing after the
match.  `fuel` bounds the recursion (every step consumes at least one
character). -/
def processInputsAux (inline : String → String) : Nat → List Char → List Char
  | 0, l => l
  | _ + 1, [] => []
  | fuel + 1, c :: rest =>
    match inputIncludeMatchAt (c :: rest) with
    | some (len, fname) =>
      (inline (String.mk fname)).data ++
        processInputsAux inline fuel ((c :: rest).drop len)
    | none => c :: processInputsAux inline fuel rest

/-- `normalizer.process_inputs`, with file reading abstracted by `inline`
(the contents `_sub_line` would substitute for a given raw filename). -/
def process_inputs (inline : String → String) (texSource : String) : String :=
  String.mk (processInputsAux inline (texSource.data.length + 1) texSource.data)

/-!
### `scraper.DEF_PATTERN` and `scraper.get_def_macros`

```
DEF_PATTERN = re.compile(
    r"\\def\s*"
    r"(?P<name>\\[a-zA-Z]*?)\s*"
    r"{(?P<content>.*?)}")
```

The lazy `[a-zA-Z]*?` is forced to expand to the full letter run (a letter
can be consumed neither by `\s*` nor by `{`), and the lazy `.*?` stops at
the first `}`; `.` does not match a newline, so a definition whose braces
span lines never matches.
-/

/-- Match `DEF_PATTERN` anchored at the head of the input.  Returns the
total match length, the macro name (with its leading backslash) and the
content. -/
def defMatchAt (cs : List Char) : Option (Nat × List Char × List Char) :=
  match cs with
  | '\\' :: 'd' :: 'e' :: 'f' :: rest =>
    let ws1 := rest.takeWhile pyIsSpace
    match rest.drop ws1.length with
    | '\\' :: r2 =>
      let letters := r2.takeWhile Char.isAlpha
      let r3 := r2.drop letters.length
      let ws2 := r3.takeWhile pyIsSpace
      match r3.drop ws2.length with
      | '{' :: r5 =>
        let content := r5.takeWhile (fun c => c ≠ '}' ∧ c ≠ '\n')
        match r5.drop content.length with
        | '}' :: _ =>
          some (4 + ws1.length + 1 + letters.length + ws2.length + 1 +
                  content.length + 1,
                '\\' :: letters, content)
        | _ => none
      | _ => none
    | _ => none
  | _ => none

/-- `re.finditer` over `DEF_PATTERN`, recording `macros[name] = content`
for each non-overlapping match in order. -/
def getDefMacrosAux : Nat → List Char → List (String × String) →
    List (String × String)
  | 0, _, m => m
  | _ + 1, [], m => m
  | fuel + 1, c :: rest, m =>
    match defMatchAt (c :: rest) with
    | some (len, name, content) =>
      getDefMacrosAux fuel ((c :: rest).drop len)
        (dictInsert m (String.mk name) (String.mk content))
    | none => getDefMacrosAux fuel rest m

/-- `scraper.get_def_macros`. -/
def get_def_macros (texSource : String) : List (String × String) :=
  getDefMacrosAux (texSource.data.length + 1) texSource.data []

/-!
### `commandparser.LatexCommand` / `ParsedCommand`

The same class appears twice in the repository: as `LatexCommand` in
`lsstprojectmeta/tex/commandparser.py` (raising `CommandParserError`) and
as `LaTeXCommand` in `ext/parser/texutils/extract.py` (raising
`RuntimeError`); the parsing algorithm is identical line for line, so one
embedding below serves both.
-/

/-- Uncaught Python exceptions that the modelled methods can raise. -/
inductive PyErr where
  /-- `CommandParserError` (commandparser.py) / `RuntimeError` raised
  inside `_parse_command` or `_parse_whitespace_argument` (extract.py). -/
  | commandParserError
  /-- `RuntimeError("Could not parse a title command.")` raised by
  `ArticleParser._parse_title` when no invocation is found. -/
  | runtimeError
  /-- `KeyError` escaping from `ParsedCommand.__getitem__`. -/
  | keyError
  /-- `UnboundLocalError` from reading a local variable that was never
  assigned (see `LsstLatexDoc._parse_documentclass` / `_parse_title`). -/
  | unboundLocalError
deriving DecidableEq

/-- One element of a `LatexCommand` definition: the bracket style (`[` or
`{`), whether the element is required, its optional name and its position
in the command (assigned by the constructor's `enumerate`). -/
structure CmdElement where
  bracket : Char
  required : Bool
  name : Option String
  index : Nat
deriving DecidableEq

/-- A parsed command element (`dict` in commandparser.py, `ParsedElement`
dataclass in extract.py). -/
structure ParsedElement where
  index : Nat
  name : Option String
  content : String
deriving DecidableEq

/-- `ParsedCommand`: name, found elements, start index in the source and
the full matched source text. -/
structure ParsedCommand where
  name : String
  parsedElements : List ParsedElement
  startIndex : Nat
  commandSource : String
deriving DecidableEq

/-- A `LatexCommand` definition: the command name (without backslash) and
its syntax elements. -/
structure LatexCommand where
  name : String
  elements : List CmdElement
deriving DecidableEq

/-- `ParsedCommand._get_element` with an integer key: first element whose
`index` equals the key, `none` for `KeyError`. -/
def ParsedCommand.getElementByIndex (pc : ParsedCommand) (k : Nat) :
    Option ParsedElement :=
  pc.parsedElements.find? (fun e => e.index == k)

/-- `ParsedCommand._get_element` with a string key: first element whose
`name` equals the key (an unnamed element never matches), `none` for
`KeyError`. -/
def ParsedCommand.getElementByName (pc : ParsedCommand) (k : String) :
    Option ParsedElement :=
  pc.parsedElements.find? (fun e => e.name == some k)

/-- `ParsedCommand.__getitem__` with a string key: the `content` of the
element, `none` for `KeyError`. -/
def ParsedCommand.getItemByName (pc : ParsedCommand) (k : String) :
    Option String :=
  (pc.getElementByName k).map (fun e => e.content)

/-- `ParsedCommand.__contains__` with an integer key: `_get_element`
wrapped in `try`/`except KeyError`. -/
def ParsedCommand.containsIndex (pc : ParsedCommand) (k : Nat) : Bool :=
  (pc.getElementByIndex k).isSome

/-- Character class `[\s{[%]` used after a command name by
`_make_command_regex`. -/
def isCmdSeparator (c : Char) : Bool :=
  pyIsSpace c || c = '{' || c = '[' || c = '%'

/-- Match `\\ + name + (?:[\s{[%])` (the regex built by
`_make_command_regex`) anchored at the head of the input. -/
def cmdNameMatchAt (name : List Char) : List Char → Bool
  | '\\' :: rest =>
    name.isPrefixOf rest &&
      (match rest.drop name.length with
       | c :: _ => isCmdSeparator c
       | [] => false)
  | _ => false

/-- Start indices of all non-overlapping matches of the command regex, as
enumerated by `re.finditer` in `LatexCommand.parse` (after a match the scan
resumes past its end; a match spans `name.length + 2` characters). -/
def findCommandStartsAux (name : List Char) (cs : List Char) :
    Nat → Nat → List Nat
  | _, 0 => []
  | i, fuel + 1 =>
    if i ≥ cs.length then []
    else if cmdNameMatchAt name (cs.drop i) then
      i :: findCommandStartsAux name cs (i + name.length + 2) fuel
    else
      findCommandStartsAux name cs (i + 1) fuel

/-- All start indices of the command in the source. -/
def findCommandStarts (name : List Char) (cs : List Char) : List Nat :=
  findCommandStartsAux name cs 0 (cs.length + 1)

/-- The slice `source[a:b]` of a character list. -/
def slice (cs : List Char) (a b : Nat) : List Char :=
  (cs.drop a).take (b - a)

/-- `LatexCommand._brackets[c]`: the closing bracket matching an opening
one (`[` maps to `]`, `{` to `}`; elements only ever carry these two). -/
def closingOf (c : Char) : Char :=
  if c = '[' then ']' else '}'

/-- Scan for the first character equal to the bracket or to a newline,
whichever comes first; returns its offset and the character found. -/
def findBracketOrNL (bracket : Char) : List Char → Option (Nat × Char)
  | [] => none
  | c :: rest =>
    if c = bracket then some (0, c)
    else if c = '\n' then some (0, c)
    else (findBracketOrNL bracket rest).map (fun p => (p.1 + 1, p.2))

/-- Balance scan of `_parse_command`: starting after the opening bracket
with balance `bal`, return the offset of the character at which the
balance first reaches zero (`none` when the brackets never close). -/
def findClosing (openB closeB : Char) : List Char → Nat → Option Nat
  | [], _ => none
  | c :: rest, bal =>
    let bal' := if c = openB then bal + 1 else if c = closeB then bal - 1 else bal
    if bal' = 0 then some 0
    else (findClosing openB closeB rest bal').map (fun n => n + 1)

/-- Trailing class `[ %\t\n]` of the whitespace-argument regex. -/
def isWsArgTrail (c : Char) : Bool :=
  c = ' ' || c = '%' || c = '\t' || c = '\n'

/-- Greedy backtracking of `\S+` when the character right after the full
non-whitespace run is not in `[ %\t\n]`: the largest proper prefix of the
run (of length at least one) whose following character inside the run lies
in the class — within a non-whitespace run only `%` qualifies. -/
def backtrackPercent (run : List Char) : Option (List Char) :=
  match (run.enum.filter (fun p => p.2 = '%' ∧ 1 ≤ p.1)).map (fun p => p.1) with
  | [] => none
  | k :: ks => some (run.take ((k :: ks).getLastD k))

/-- Match `(?P<content>\S+)(?:[ %\t\n]+)` anchored at the head of the
input, with the regex engine's greedy backtracking. -/
def wsArgMatchAt (cs : List Char) : Option (List Char) :=
  let run := cs.takeWhile (fun c => !pyIsSpace c)
  if run.isEmpty then none
  else
    match cs.drop run.length with
    | c :: _ => if isWsArgTrail c then some run else backtrackPercent run
    | [] => backtrackPercent run

/-- `re.search` of the whitespace-argument pattern: first position at
which the anchored match succeeds. -/
def wsArgSearch : List Char → Option (List Char)
  | [] => none
  | c :: rest =>
    match wsArgMatchAt (c :: rest) with
    | some content => some content
    | none => wsArgSearch rest

/-- `LatexCommand._parse_whitespace_argument`: first locate the command
name itself (regex `\\(name)(?:[\s{[%])`) and trim the source to just
after the name; then search for a whitespace-delimited token; raise
`CommandParserError` when none exists. -/
def parseWhitespaceArgument (source : List Char) (name : String) :
    Except PyErr (List Char) :=
  let trimmed :=
    match findCommandStarts name.data source with
    | i :: _ => source.drop (i + 1 + name.length)
    | [] => source
  match wsArgSearch trimmed with
  | some content => Except.ok content
  | none => Except.error PyErr.commandParserError

/-- `LatexCommand._parse_command`, iterating over the command's elements
with the running index of the parser.  Mirrors the Python control flow:
on hitting a newline before the opening bracket of a required element the
whitespace-argument fallback returns immediately with that single element;
for an optional element the parser gives up on it and continues; a
never-found opening bracket of a required element, or an unbalanced
bracket, raises. -/
def parseCommandAux (cs : List Char) (cmdName : String) (startIndex : Nat) :
    List CmdElement → Nat → List ParsedElement → Except PyErr ParsedCommand
  | [], runningIndex, acc =>
    Except.ok ⟨cmdName, acc.reverse, startIndex,
      String.mk (slice cs startIndex runningIndex)⟩
  | el :: restEls, runningIndex, acc =>
    match findBracketOrNL el.bracket (cs.drop runningIndex) with
    | some (off, c) =>
      if c = '\n' then
        if el.required then
          match parseWhitespaceArgument (cs.drop runningIndex) cmdName with
          | Except.ok content =>
            Except.ok ⟨cmdName, [⟨el.index, el.name, String.mk (pyStrip content)⟩],
              startIndex, String.mk (slice cs startIndex (runningIndex + off))⟩
          | Except.error e => Except.error e
        else
          parseCommandAux cs cmdName startIndex restEls runningIndex acc
      else
        -- opening bracket found at absolute index `runningIndex + off`
        let elementStart := runningIndex + off
        match findClosing el.bracket (closingOf el.bracket)
            (cs.drop (elementStart + 1)) 1 with
        | some coff =>
          let elementEnd := elementStart + 1 + coff
          let content := (cs.drop (elementStart + 1)).take coff
          parseCommandAux cs cmdName startIndex restEls (elementEnd + 1)
            (⟨el.index, el.name, String.mk (pyStrip content)⟩ :: acc)
        | none => Except.error PyErr.commandParserError
    | none =>
      if el.required then Except.error PyErr.commandParserError
      else parseCommandAux cs cmdName startIndex restEls runningIndex acc

/-- `LatexCommand._parse_command` on a source string at a start index. -/
def parseCommand (cmd : LatexCommand) (source : String) (startIndex : Nat) :
    Except PyErr ParsedCommand :=
  parseCommandAux source.data cmd.name startIndex cmd.elements startIndex []

/-- `LatexCommand.parse` consumed to a list (e.g. by a list comprehension
or a `for` loop): all matches are parsed in order; an exception raised
while parsing one match aborts the whole iteration. -/
def parseAll (cmd : LatexCommand) (source : String) :
    Except PyErr (List ParsedCommand) :=
  (findCommandStarts cmd.name.data source.data).mapM (parseCommand cmd source)

/-- `next(command.parse(source))`: `none` models `StopIteration` (no match
at all); otherwise the first match's parse result (which may raise). -/
def firstParsedCommand (cmd : LatexCommand) (source : String) :
    Option (Except PyErr ParsedCommand) :=
  match findCommandStarts cmd.name.data source.data with
  | [] => none
  | i :: _ => some (parseCommand cmd source i)

/-!
### Command definitions used by the extractors
-/

/-- The `title` command spec used by both `LsstLatexDoc._parse_title` and
`ArticleParser._parse_title`: one optional `[` short-title slot, one
required `{` long-title slot. -/
def titleCmd : LatexCommand :=
  ⟨"title", [⟨'[', false, some "short_title", 0⟩,
             ⟨'{', true, some "long_title", 1⟩]⟩

/-- The `documentclass` command spec of `LsstLatexDoc._parse_documentclass`:
one optional `[` options slot, one required `{` class-name slot. -/
def documentclassCmd : LatexCommand :=
  ⟨"documentclass", [⟨'[', false, some "options", 0⟩,
                     ⟨'{', true, some "class_name", 1⟩]⟩

/-- The `newcommand` command spec of `get_newcommand_macros`: two required
`{` slots named `name` and `content`. -/
def newcommandCmd : LatexCommand :=
  ⟨"newcommand", [⟨'{', true, some "name", 0⟩,
                  ⟨'{', true, some "content", 1⟩]⟩

/-- A command spec with one required `{` slot, as used for `\input`. -/
def inputCmd : LatexCommand := ⟨"input", [⟨'{', true, none, 0⟩]⟩

/-!
### `scraper.get_newcommand_macros`
-/

/-- `scraper.get_newcommand_macros`: parse every `newcommand` invocation
and record `macros[macro["name"]] = macro["content"]`; an exception raised
while iterating the generator, or a `KeyError` on a missing slot,
propagates. -/
def get_newcommand_macros (texSource : String) :
    Except PyErr (List (String × String)) :=
  match parseAll newcommandCmd texSource with
  | Except.error e => Except.error e
  | Except.ok pcs =>
    pcs.foldlM (fun m pc =>
      match pc.getItemByName "name", pc.getItemByName "content" with
      | some n, some c => Except.ok (dictInsert m n c)
      | _, _ => Except.error PyErr.keyError) []

/-!
### `LsstLatexDoc._parse_documentclass` and `LsstLatexDoc._parse_title`

Both methods wrap `parsed = next(command.parse(self._tex))` in
`try ... except StopIteration:`; the `except` arm logs a warning and
assigns the default to the attribute **but does not `return`** (unlike the
sibling `_parse_doc_ref`, which does).  Execution therefore falls through
to the subsequent access of the local `parsed`, which was never assigned,
raising `UnboundLocalError` — an exception the following
`except KeyError:` does not catch.
-/

/-- `LsstLatexDoc._parse_documentclass`, returning the
`_document_options` the method leaves behind, or the exception it raises. -/
def lsstdocParseDocumentclass (tex : String) : Except PyErr (List String) :=
  match firstParsedCommand documentclassCmd tex with
  | none =>
    -- except StopIteration: logs, sets `_document_options = []`, then
    -- falls through (missing `return`) to `content = parsed["options"]`
    -- with `parsed` unbound: UnboundLocalError, not caught by
    -- `except KeyError`.
    Except.error PyErr.unboundLocalError
  | some (Except.error e) => Except.error e
  | some (Except.ok pc) =>
    match pc.getItemByName "options" with
    | some content =>
      -- [opt.strip() for opt in content.split(",")]
      Except.ok ((splitOnChar ',' content.data).map
        (fun cs => String.mk (pyStrip cs)))
    | none =>
      -- except KeyError: no options, `_document_options = []`
      Except.ok []

/-- `LsstLatexDoc._parse_title`, returning the `(_title, _short_title)`
pair the method leaves behind, or the exception it raises. -/
def lsstdocParseTitle (tex : String) :
    Except PyErr (Option String × Option String) :=
  match firstParsedCommand titleCmd tex with
  | none =>
    -- except StopIteration: logs, sets `_title = None` and
    -- `_short_title = None`, then falls through (missing `return`) to
    -- `self._title = parsed["long_title"]` with `parsed` unbound:
    -- UnboundLocalError, not caught by the later `except KeyError`.
    Except.error PyErr.unboundLocalError
  | some (Except.error e) => Except.error e
  | some (Except.ok pc) =>
    match pc.getItemByName "long_title" with
    | none => Except.error PyErr.keyError
    | some longTitle =>
      match pc.getItemByName "short_title" with
      | some st => Except.ok (some longTitle, some st)
      | none => Except.ok (some longTitle, none)

/-!
### `ArticleParser._parse_title`
-/

/-- `ArticleParser._parse_title`: collect all `title` invocations; raise
`RuntimeError` when there is none; otherwise return
`titles[-1]["long_title"]`. -/
def articleParseTitle (texSource : String) : Except PyErr String :=
  match parseAll titleCmd texSource with
  | Except.error e => Except.error e
  | Except.ok [] => Except.error PyErr.runtimeError
  | Except.ok (t :: ts) =>
    match (ts.getLastD t).getItemByName "long_title" with
    | some content => Except.ok content
    | none => Except.error PyErr.keyError

/-!
### `LsstLatexDoc.build_jsonld`

The JSON-LD dictionary is modelled as an ordered association list of
`JsonVal` values.  Document-derived inputs (`self.handle`,
`self.plain_title`, `self.plain_abstract`, `self.plain_authors`,
`self.revision_datetime`, `self.plain_content`, `self._tex`) are passed as
parameters; `plainContent` is `Except`-valued because pypandoc may raise
`RuntimeError`, which the method handles with a fallback to the TeX
source.
-/

/-- JSON values appearing in the JSON-LD dictionary. -/
inductive JsonVal where
  | str : String → JsonVal
  /-- Python `None`. -/
  | null : JsonVal
  | arr : List JsonVal → JsonVal
  | obj : List (String × JsonVal) → JsonVal
  /-- An opaque `datetime.datetime` value. -/
  | datetimeVal : Nat → JsonVal

/-- `LsstLatexDoc.build_jsonld`. -/
def build_jsonld (handle plainTitle plainAbstract : String)
    (plainAuthors : List String) (dateModified : JsonVal)
    (plainContent : Except Unit String) (texSource : String)
    (url codeUrl ciUrl readmeUrl licenseId : Option String) :
    List (String × JsonVal) :=
  let jsonld : List (String × JsonVal) :=
    [("@context", JsonVal.arr
        [JsonVal.str ("https://raw.githubusercontent.com/codemeta/codemeta/" ++
            "2.0-rc/codemeta.jsonld"),
         JsonVal.str "http://schema.org"]),
     ("@type", JsonVal.arr [JsonVal.str "Report",
                            JsonVal.str "SoftwareSourceCode"]),
     ("language", JsonVal.str "TeX"),
     ("reportNumber", JsonVal.str handle),
     ("name", JsonVal.str plainTitle),
     ("description", JsonVal.str plainAbstract),
     ("author", JsonVal.arr (plainAuthors.map (fun a =>
        JsonVal.obj [("@type", JsonVal.str "Person"),
                     ("name", JsonVal.str a)]))),
     ("dateModified", dateModified)]
  let jsonld :=
    match plainContent with
    | Except.ok body =>
      dictInsert (dictInsert jsonld "articleBody" (JsonVal.str body))
        "fileFormat" (JsonVal.str "text/plain")
    | Except.error _ =>
      -- except RuntimeError: fall back to the TeX source
      dictInsert (dictInsert jsonld "articleBody" (JsonVal.str texSource))
        "fileFormat" (JsonVal.str "text/plain")
  let jsonld :=
    match url with
    | some u => dictInsert (dictInsert jsonld "@id" (JsonVal.str u))
        "url" (JsonVal.str u)
    | none => dictInsert jsonld "@id" (JsonVal.str handle)
  let jsonld :=
    match codeUrl with
    | some u => dictInsert jsonld "codeRepository" (JsonVal.str u)
    | none => jsonld
  let jsonld :=
    match ciUrl with
    | some u => dictInsert jsonld "contIntegration" (JsonVal.str u)
    | none => jsonld
  let jsonld :=
    match readmeUrl with
    | some u => dictInsert jsonld "readme" (JsonVal.str u)
    | none => jsonld
  let jsonld :=
    match licenseId with
    | some _ =>
      -- source line 835: `jsonld["license_id"] = None` — the guard tests
      -- `license_id is not None` but the assigned value is `None`, not
      -- `license_id`.
      dictInsert jsonld "license_id" JsonVal.null
    | none => jsonld
  jsonld

/-!
## Supporting lemmas
-/

/-- When `input_include_pattern` matches nowhere in the input, `re.sub`
returns it unchanged (for any inliner, which is never invoked). -/
theorem processInputsAux_noMatch (inline : String → String) :
    ∀ (fuel : Nat) (cs : List Char), hasInputIncludeAux cs = false →
      processInputsAux inline fuel cs = cs := by
  intro fuel
  induction fuel with
  | zero => intro cs _; rfl
  | succ n ih =>
    intro cs h
    cases cs with
    | nil => rfl
    | cons c rest =>
      simp only [hasInputIncludeAux, Bool.or_eq_false_iff] at h
      have hnone : inputIncludeMatchAt (c :: rest) = none :=
        Option.not_isSome_iff_eq_none.mp (by simp [h.1])
      simp only [processInputsAux, hnone]
      rw [ih rest h.2]

/-- Every element of a successfully parsed command originates from one of
the (remaining) command-definition elements or from the accumulator:
`_parse_command` never stores a slot it did not find. -/
theorem parseCommandAux_mem (cs : List Char) (cmdName : String)
    (startIndex : Nat) :
    ∀ (els : List CmdElement) (ri : Nat) (acc : List ParsedElement)
      (pc : ParsedCommand),
      parseCommandAux cs cmdName startIndex els ri acc = Except.ok pc →
      ∀ e ∈ pc.parsedElements,
        e ∈ acc ∨ ∃ el ∈ els, e.index = el.index ∧ e.name = el.name := by
  intro els
  induction els with
  | nil =>
    intro ri acc pc h e he
    simp only [parseCommandAux, Except.ok.injEq] at h
    subst h
    exact Or.inl (List.mem_reverse.mp he)
  | cons el restEls ih =>
    intro ri acc pc h e he
    simp only [parseCommandAux] at h
    cases hfb : findBracketOrNL el.bracket (cs.drop ri) with
    | none =>
      rw [hfb] at h
      by_cases hreq : el.required
      · simp [hreq] at h
      · simp only [hreq, if_false, Bool.false_eq_true] at h
        rcases ih ri acc pc h e he with hl | ⟨el', hel', hprop⟩
        · exact Or.inl hl
        · exact Or.inr ⟨el', List.mem_cons_of_mem el hel', hprop⟩
    | some v =>
      obtain ⟨off, c⟩ := v
      rw [hfb] at h
      by_cases hnl : c = '\n'
      · simp only [hnl, if_pos rfl] at h
        by_cases hreq : el.required
        · simp only [hreq, if_true] at h
          cases hw : parseWhitespaceArgument (cs.drop ri) cmdName with
          | ok content =>
            rw [hw] at h
            simp only [Except.ok.injEq] at h
            subst h
            simp only [List.mem_singleton] at he
            subst he
            exact Or.inr ⟨el, List.mem_cons_self el restEls, rfl, rfl⟩
          | error err => rw [hw] at h; exact absurd h (by simp)
        · simp only [hreq, Bool.false_eq_true, if_false] at h
          rcases ih ri acc pc h e he with hl | ⟨el', hel', hprop⟩
          · exact Or.inl hl
          · exact Or.inr ⟨el', List.mem_cons_of_mem el hel', hprop⟩
      · simp only [if_neg hnl] at h
        cases hc : findClosing el.bracket (closingOf el.bracket)
            (cs.drop (ri + off + 1)) 1 with
        | none => rw [hc] at h; exact absurd h (by simp)
        | some coff =>
          rw [hc] at h
          rcases ih _ _ pc h e he with hl | ⟨el', hel', hprop⟩
          · rcases List.mem_cons.mp hl with hhd | htl
            · subst hhd
              exact Or.inr ⟨el, List.mem_cons_self el restEls, rfl, rfl⟩
            · exact Or.inl htl
          · exact Or.inr ⟨el', List.mem_cons_of_mem el hel', hprop⟩

/-!
## Claim theorems
-/

/-- C1: the claim states that when a metadata field's command is absent
(no `\documentclass`, no `\title`), `_parse_documentclass` and
`_parse_title` complete without raising, leaving the field unset.  The
code contradicts this: the `except StopIteration:` arm assigns the default
but lacks a `return` statement (unlike the sibling `_parse_doc_ref`), so
execution falls through to the access of the never-assigned local
`parsed`, raising `UnboundLocalError`, which the later `except KeyError:`
does not catch.  On the source `"Hello"` (which contains neither command)
both methods raise. -/
theorem c1_missing_field_raises_unbound_local :
    lsstdocParseDocumentclass "Hello" = Except.error PyErr.unboundLocalError ∧
    lsstdocParseTitle "Hello" = Except.error PyErr.unboundLocalError :=
  ⟨rfl, rfl⟩

/-- C2 (counterexample): the claim states that
`\newcommand\name{content}` — the backslash of `\name` immediately
following the word `newcommand` — yields a macro-table entry for `\name`.
It does not: the command-detection regex `\\newcommand(?:[\s{[%])`
requires a whitespace character, `{`, `[` or `%` right after the command
name, and a backslash is none of these, so the invocation is never
matched and the returned table is empty (so lookup of `\name` in it finds
nothing). -/
theorem c2_unbraced_newcommand_not_recorded :
    get_newcommand_macros "\\newcommand\\name\x7bcontent\x7d" =
      Except.ok [] ∧
    dictGet ([] : List (String × String)) "\\name" = none :=
  ⟨rfl, rfl⟩

/-- C2 (amended): only the braced variant
`\newcommand{\name}{content}` is recorded by `get_newcommand_macros`,
mapping `\name` to `content`; the variant `\newcommand\name{content}`
without inner braces around the macro name is not matched at all and
produces no entry. -/
theorem c2_newcommand_braced_variant_only :
    get_newcommand_macros "\\newcommand\x7b\\name\x7d\x7bcontent\x7d" =
      Except.ok [("\\name", "content")] ∧
    get_newcommand_macros "\\newcommand\\name\x7bcontent\x7d" =
      Except.ok [] :=
  ⟨rfl, rfl⟩

/-- C3 (counterexample): the claim states that with two `\title`
invocations every extractor implementation returns the long title of the
LAST one.  On `"\title{First}\n\title{Second}\n"` the last long title is
`"Second"`, but `LsstLatexDoc._parse_title` uses
`next(command.parse(...))` — the FIRST invocation — and extracts
`"First"`. -/
theorem c3_lsstdoc_takes_first_title :
    lsstdocParseTitle "\\title\x7bFirst\x7d\n\\title\x7bSecond\x7d\n" =
      Except.ok (some "First", none) ∧
    (some "First" : Option String) ≠ some "Second" :=
  ⟨rfl, by decide⟩

/-- C3 (amended): with multiple `\title` invocations,
`ArticleParser._parse_title` (which takes `titles[-1]`) returns the long
title of the last invocation, while `LsstLatexDoc._parse_title` (which
takes `next(...)`) returns the long title of the first. -/
theorem c3_last_title_article_first_title_lsstdoc :
    articleParseTitle "\\title\x7bFirst\x7d\n\\title\x7bSecond\x7d\n" =
      Except.ok "Second" ∧
    lsstdocParseTitle "\\title\x7bFirst\x7d\n\\title\x7bSecond\x7d\n" =
      Except.ok (some "First", none) :=
  ⟨rfl, rfl⟩

/-- C4: `replace_macros` with table `{\product: "Data Management"}` on
`\title [Test Plan] { \product\ Test Plan}` returns exactly
`\title [Test Plan] { Data Management Test Plan}`: the occurrence of the
macro name is replaced, the immediately-following escaped-space backslash
is consumed, and the replacement content is inserted literally. -/
theorem c4_replace_macros_consumes_trailing_backslash :
    replace_macros "\\title [Test Plan] \x7b \\product\\ Test Plan\x7d"
        [("\\product", "Data Management")] =
      "\\title [Test Plan] \x7b Data Management Test Plan\x7d" :=
  rfl

/-- C5: the Source Normalizer is idempotent on already-normalized input:
for every string that is comment-free (a fixed point of
`remove_comments`), trailing-whitespace-trimmed (a fixed point of
`remove_trailing_whitespace`) and with all `\input`/`\include` references
inlined (no match of `input_include_pattern` remains), running the
pipeline `remove_comments`, then `remove_trailing_whitespace`, then
`process_inputs` returns the string unchanged, whatever contents the
(never consulted) referenced files would have. -/
theorem c5_normalizer_idempotent (s : String) (inline : String → String)
    (h1 : remove_comments s = s) (h2 : remove_trailing_whitespace s = s)
    (h3 : hasInputInclude s = false) :
    process_inputs inline (remove_trailing_whitespace (remove_comments s)) = s := by
  rw [h1, h2]
  unfold process_inputs
  rw [processInputsAux_noMatch inline _ s.data h3]

/-- C5 witness: the already-normalized source `"Hello\nworld"` satisfies
the three hypotheses and passes through the pipeline unchanged. -/
theorem c5_normalizer_idempotent_witness :
    remove_comments "Hello\nworld" = "Hello\nworld" ∧
    remove_trailing_whitespace "Hello\nworld" = "Hello\nworld" ∧
    hasInputInclude "Hello\nworld" = false ∧
    process_inputs (fun _ => "UNUSED")
        (remove_trailing_whitespace (remove_comments "Hello\nworld")) =
      "Hello\nworld" :=
  ⟨rfl, rfl, rfl,
    c5_normalizer_idempotent "Hello\nworld" (fun _ => "UNUSED") rfl rfl rfl⟩

/-- C6: for a command spec with one required curly-braced slot, parsing
`"\input file\nNext line"` yields a `ParsedCommand` whose sole slot
content is `"file"` (the whitespace-argument fallback triggered by the
newline before any opening bracket), terminating immediately with only
that slot; and when no whitespace-delimited token follows the command
name (source `"\input\n"`), the parser raises `CommandParserError`
instead of silently skipping. -/
theorem c6_whitespace_argument_fallback :
    parseAll inputCmd "\\input file\nNext line" =
      Except.ok [⟨"input", [⟨0, none, "file"⟩], 0, "\\input file"⟩] ∧
    parseAll inputCmd "\\input\n" =
      Except.error PyErr.commandParserError :=
  ⟨rfl, rfl⟩

/-- C7: a `ParsedCommand`'s argument list only contains slots that were
actually found: every stored element carries the index and name of one of
the command definition's elements (nothing is stored as a null entry);
and concretely, for a spec with one optional `[` slot then one required
`{` slot, `\title{Only Title}` parses successfully with the optional slot
entirely absent — lookup by its index 0 yields the `KeyError` condition
(`none`) and membership reports `false` — while the required slot's
content is `"Only Title"`. -/
theorem c7_absent_optional_slot_omitted :
    (∀ (cmd : LatexCommand) (source : String) (i : Nat) (pc : ParsedCommand),
      parseCommand cmd source i = Except.ok pc →
      ∀ e ∈ pc.parsedElements,
        ∃ el ∈ cmd.elements, e.index = el.index ∧ e.name = el.name) ∧
    parseAll titleCmd "\\title\x7bOnly Title\x7d" =
      Except.ok [⟨"title", [⟨1, some "long_title", "Only Title"⟩], 0,
        "\\title\x7bOnly Title\x7d"⟩] ∧
    (ParsedCommand.mk "title" [⟨1, some "long_title", "Only Title"⟩] 0
        "\\title\x7bOnly Title\x7d").getElementByIndex 0 = none ∧
    (ParsedCommand.mk "title" [⟨1, some "long_title", "Only Title"⟩] 0
        "\\title\x7bOnly Title\x7d").containsIndex 0 = false ∧
    (ParsedCommand.mk "title" [⟨1, some "long_title", "Only Title"⟩] 0
        "\\title\x7bOnly Title\x7d").getItemByName "long_title" =
      some "Only Title" := by
  refine ⟨?_, rfl, rfl, rfl, rfl⟩
  intro cmd source i pc h e he
  rcases parseCommandAux_mem source.data cmd.name i cmd.elements i [] pc h e he
    with hl | hr
  · exact absurd hl (List.not_mem_nil e)
  · exact hr

/-- C8: the claim states that `build_jsonld` called with a non-None
`license_id` returns a dictionary whose `"license_id"` value equals the
supplied identifier.  The code instead executes
`jsonld["license_id"] = None` inside the `if license_id is not None:`
guard, so the key is present but its value is Python `None` — not the
identifier. -/
theorem c8_license_id_assigned_none :
    dictGet
      (build_jsonld "LDM-151" "Title" "Abstract" ["Author"]
        (JsonVal.datetimeVal 0) (Except.ok "body") "tex-source"
        (some "https://ldm-151.lsst.io") none none none
        (some "CC-BY-4.0"))
      "license_id" = some JsonVal.null :=
  rfl

/-- C9: `get_def_macros` truncates a `\def` body at the first closing
brace rather than balancing braces: `\def\x{a{b}c}` records `\x ↦ "a{b"`;
and a `\def` whose braced content spans multiple lines (`.` does not
match a newline) is not recorded at all. -/
theorem c9_def_content_truncated_at_first_close :
    get_def_macros "\\def\\x\x7ba\x7bb\x7dc\x7d" = [("\\x", "a\x7bb")] ∧
    get_def_macros "\\def\\y\x7ba\nb\x7d" = [] :=
  ⟨rfl, rfl⟩

/-- C10: `replace_macros` performs no token-boundary check: the table key
`\prod` is replaced inside the longer control sequence `\product`
(leaving `Xuct`), and the optional trailing-backslash consumption deletes
the leading backslash of a following control sequence, so `\handle\relax`
with `\handle ↦ LDM-151` becomes `LDM-151relax`. -/
theorem c10_no_token_boundary_in_replace_macros :
    replace_macros "\\product" [("\\prod", "X")] = "Xuct" ∧
    replace_macros "\\handle\\relax" [("\\handle", "LDM-151")] =
      "LDM-151relax" :=
  ⟨rfl, rfl⟩

end Lander
